import Mathlib

/-!
Verification of the predictive-prescriptive analytics pipeline
(`forecast.py`, `optimize.py` over the schema of `db_setup.py`).

The embedding uses exact rational arithmetic (`ℚ`) for the REAL columns and
float computations of the source, `ℤ` for hour-aligned instants (hours since
an hour-aligned epoch; the TEXT timestamps of the forecast tables are in the
format `YYYY-MM-DD HH:MM:SS`, on which lexicographic order agrees with
chronological order, so interval conditions on the TEXT column correspond to
interval conditions on `ℤ`).  The heavyweight external models (TensorFlow
training, statsmodels fitting, the SCIP LP solver) are modelled as oracle
parameters; everything the repository itself computes is embedded directly.
-/

set_option autoImplicit false

namespace PPA

/-- Truncation of a rational toward zero, the behaviour of Python `int(x)`
on a float (`int(0.5) = 0`, `int(-0.5) = 0`). -/
def ratTrunc (q : ℚ) : ℤ := q.num / (q.den : ℤ)

/-- `AVG` of SQLite over a list of values (0 on the empty list, which the
source never hits because groups are nonempty). -/
def listAvg (l : List ℚ) : ℚ := l.sum / (l.length : ℚ)

/-! ## Data model (schema from `db_setup.py`)

`raw_data` keeps its TEXT timestamp because the specs query of
`optimize.py` exercises genuine SQLite TEXT-vs-numeric comparison
semantics on that column. -/

/-- A row of the `raw_data` table. -/
structure RawRow where
  timestamp : String
  hour : ℤ
  machine_id : String
  energy_per_unit : ℚ
  production_demand : ℤ
  max_capacity : ℤ
  energy_cost : ℚ
  deriving DecidableEq, Repr

/-- A row of the `forecasts` table (timestamp abstracted to hours on `ℤ`). -/
structure ForecastRow where
  timestamp : ℤ
  machine_id : String
  predicted_demand : ℚ
  deriving DecidableEq, Repr

/-- A row of the `optimizations` table. -/
structure OptRow where
  timestamp : ℤ
  machine_id : String
  hour : ℤ
  optimized_production : ℚ
  baseline_production : ℤ
  optimized_cost : ℚ
  baseline_cost : ℚ
  deriving DecidableEq, Repr

/-- The three tables the two engines read and write. -/
structure DB where
  raw_data : List RawRow
  forecasts : List ForecastRow
  optimizations : List OptRow
  deriving DecidableEq, Repr

/-! ## Forecasting engine (`forecast.py`) -/

/-- `make_sequences(series, window)`: sliding windows of length `window`
paired with the next observed value.  `range(len(series) - window)` is empty
when the series is no longer than the window, exactly as `ℕ` subtraction. -/
def make_sequences (series : List ℚ) (window : ℕ) : List (List ℚ) × List ℚ :=
  ((List.range (series.length - window)).map (fun i => (series.drop i).take window),
   (List.range (series.length - window)).map (fun i => series.getD (i + window) 0))

/-- Python `series[-n:]`: the last `n` elements (the whole list when shorter). -/
def lastN {α : Type} (l : List α) (n : ℕ) : List α := l.drop (l.length - n)

/-- The autoregressive rollout loop of `lstm_forecast`: predict from the
current window, emit the prediction, slide the window (drop the oldest
element, append the prediction), repeat `steps` times.  The trained network
is the oracle `model`. -/
def lstmRollout (model : List ℚ → ℚ) : ℕ → List ℚ → List ℚ
  | 0, _ => []
  | steps + 1, window =>
      let p := model window
      p :: lstmRollout model steps (window.drop 1 ++ [p])

/-- `lstm_forecast(series, steps)`.  The insufficient-data guard
`len(X) < 10` is checked before training; `crash` models any exception
raised by TensorFlow during fit or predict after the guard passes. -/
def lstm_forecast (crash : Bool) (model : List ℚ → ℚ) (series : List ℚ)
    (steps : ℕ) : Except String (List ℚ) :=
  if (make_sequences series 24).1.length < 10 then
    Except.error "Not enough data to train LSTM model."
  else if crash then
    Except.error "lstm model failure during fit or predict"
  else
    Except.ok (lstmRollout model steps (lastN series 24))

/-- `arima_forecast(series, steps)`.  The insufficient-data guard
`len(series) < 30` is checked before fitting; `crash` models any exception
raised by statsmodels during fit or forecast; the fitted model's
`forecast(steps)` output is the oracle `model`. -/
def arima_forecast (crash : Bool) (model : List ℚ → ℕ → List ℚ)
    (series : List ℚ) (steps : ℕ) : Except String (List ℚ) :=
  if series.length < 30 then
    Except.error "Not enough data for ARIMA model."
  else if crash then
    Except.error "arima model failure during fit"
  else
    Except.ok (model series steps)

/-- The runtime environment of `forecast.main`: which optional libraries
imported successfully (module-level capability probe) and the oracle
behaviour of the external models, including whether they raise on a given
series. -/
structure ForecastEnv where
  tf_available : Bool
  sm_available : Bool
  lstm_model : List ℚ → ℚ
  arima_model : List ℚ → ℕ → List ℚ
  lstm_crash : List ℚ → Bool
  arima_crash : List ℚ → Bool

/-- The body of the `try` block of `forecast.main` for one machine:
LSTM when TensorFlow is available, else ARIMA when statsmodels is
available, else the naive forecast. -/
def tryStrategy (env : ForecastEnv) (series : List ℚ) : Except String (List ℚ) :=
  if env.tf_available then
    lstm_forecast (env.lstm_crash series) env.lstm_model series 24
  else if env.sm_available then
    arima_forecast (env.arima_crash series) env.arima_model series 24
  else
    Except.ok (List.replicate 24 (series.getLastD 0))

/-- One machine's forecast in `forecast.main`: the chosen strategy, with the
`except` clause falling back to the naive forecast
`[float(series.iloc[-1])] * 24` (the series is nonempty whenever the machine
occurs in `raw_data`; `getLastD 0` models `iloc[-1]` on those inputs). -/
def forecastMachine (env : ForecastEnv) (series : List ℚ) : List ℚ :=
  match tryStrategy env series with
  | Except.ok preds => preds
  | Except.error _ => List.replicate 24 (series.getLastD 0)

/-- Which of the three strategies actually produced the persisted values. -/
inductive UsedStrategy where
  | lstm
  | arima
  | naive
  deriving DecidableEq, Repr

/-- The strategy whose output `forecastMachine` returns, read off the same
control flow as `forecast.main`. -/
def strategyUsed (env : ForecastEnv) (series : List ℚ) : UsedStrategy :=
  if env.tf_available then
    match lstm_forecast (env.lstm_crash series) env.lstm_model series 24 with
    | Except.ok _ => UsedStrategy.lstm
    | Except.error _ => UsedStrategy.naive
  else if env.sm_available then
    match arima_forecast (env.arima_crash series) env.arima_model series 24 with
    | Except.ok _ => UsedStrategy.arima
    | Except.error _ => UsedStrategy.naive
  else
    UsedStrategy.naive

/-- The rows `persist_forecasts` inserts: one row per prediction, at
`base_time + (i + 1)` hours for the `i`-th prediction. -/
def insertRows (machine_id : String) (base_time : ℤ) (preds : List ℚ) :
    List ForecastRow :=
  preds.enum.map (fun iv =>
    { timestamp := base_time + (iv.1 : ℤ) + 1
      machine_id := machine_id
      predicted_demand := iv.2 })

/-- `persist_forecasts(conn, machine_id, base_time, preds)`: DELETE every row
of the machine whose timestamp lies BETWEEN `base_time + 1h` and
`base_time + len(preds) h` (inclusive on both ends), then INSERT the new
rows. -/
def persist_forecasts (tbl : List ForecastRow) (machine_id : String)
    (base_time : ℤ) (preds : List ℚ) : List ForecastRow :=
  tbl.filter (fun r =>
    !decide (r.machine_id = machine_id ∧
      base_time + 1 ≤ r.timestamp ∧ r.timestamp ≤ base_time + (preds.length : ℤ)))
  ++ insertRows machine_id base_time preds

/-- The per-machine loop of `forecast.main`: for each machine (with its
chronologically ordered demand series), forecast and persist. -/
def forecastBatch (env : ForecastEnv) (base_time : ℤ)
    (data : List (String × List ℚ)) (tbl : List ForecastRow) :
    List ForecastRow :=
  data.foldl
    (fun acc md => persist_forecasts acc md.1 base_time (forecastMachine env md.2))
    tbl

/-! ## Optimization engine (`optimize.py`)

### The specs query and SQLite comparison semantics

`fetch_data` runs

  SELECT machine_id, AVG(energy_per_unit), AVG(max_capacity) FROM raw_data
  WHERE timestamp > (SELECT MAX(timestamp) FROM raw_data) - '1 day'
  GROUP BY machine_id

inside SQLite.  `timestamp` is a TEXT column; per SQLite semantics the
subtraction coerces both TEXT operands to numbers by taking their longest
numeric prefix (`"2024-01-05 00:00:00"` becomes `2024`, `"1 day"` becomes
`1`), producing the integer `2023`; the comparison then applies TEXT
affinity to that integer (the column operand has TEXT affinity, the
arithmetic expression has none), so the row's timestamp string is compared
with the string `"2023"` under binary (byte-wise lexicographic) collation.
The definitions below embed exactly those rules. -/

/-- Longest numeric (digit) prefix of a string, the SQLite text-to-numeric
coercion on the non-negative integer-prefixed strings in play here. -/
def leadingDigits : List Char → ℕ → ℕ
  | [], acc => acc
  | c :: cs, acc =>
      if c.isDigit then leadingDigits cs (acc * 10 + (c.toNat - 48)) else acc

/-- SQLite numeric coercion of a timestamp-like TEXT value. -/
def textToNum (s : String) : ℤ := (leadingDigits s.toList 0 : ℤ)

/-- Byte-wise (memcmp-style) strict order on character lists; on the ASCII
strings in play, codepoint order coincides with UTF-8 byte order. -/
def charListLtB : List Char → List Char → Bool
  | [], [] => false
  | [], _ :: _ => true
  | _ :: _, [] => false
  | a :: as, b :: bs =>
      if a.toNat < b.toNat then true
      else if b.toNat < a.toNat then false
      else charListLtB as bs

/-- SQLite BINARY-collation `<` on TEXT values. -/
def textLtB (a b : String) : Bool := charListLtB a.toList b.toList

/-- `MAX(timestamp)` over `raw_data` under BINARY collation (NULL, i.e.
`none`, on an empty table). -/
def maxTimestampText (raw : List RawRow) : Option String :=
  match raw.map RawRow.timestamp with
  | [] => none
  | t :: ts => some (ts.foldl (fun a b => if textLtB a b then b else a) t)

/-- The WHERE clause of the specs query, applied to one row: the TEXT
timestamp compared against the numeric value `textToNum(max) - 1` rendered
as TEXT (affinity conversion), byte-wise.  A NULL subquery result makes the
comparison NULL, which excludes every row. -/
def specFilter (raw : List RawRow) (r : RawRow) : Bool :=
  match maxTimestampText raw with
  | none => false
  | some mx => textLtB (toString (textToNum mx - 1)) r.timestamp

/-- The `(energy_per_unit, max_capacity)` averages of the specs query for
one machine; `none` when the machine has no row passing the filter (the
machine is then absent from `specs_df` and `specs_df.loc` raises). -/
def specLookup (raw : List RawRow) (m : String) : Option (ℚ × ℚ) :=
  let g := (raw.filter (specFilter raw)).filter (fun r => decide (r.machine_id = m))
  if g.isEmpty then none
  else some (listAvg (g.map RawRow.energy_per_unit),
             listAvg (g.map (fun r => (r.max_capacity : ℚ))))

/-- The distinct machines of `specs_df` (the GROUP BY groups). -/
def specMachines (raw : List RawRow) : List String :=
  ((raw.filter (specFilter raw)).map RawRow.machine_id).dedup

/-- `specs_df['max_capacity'].sum()`: the sum over groups of the averaged
capacity. -/
def capSum (raw : List RawRow) : ℚ :=
  ((specMachines raw).map (fun m => ((specLookup raw m).getD (0, 0)).2)).sum

/-- The averaged per-`(machine, hour)` energy cost of the cost query, with
the `default_cost = 0.15` fallback of `optimize_all` when the pair has no
historical rows (`energy_cost_map.get(..., default_cost)` is applied at
lookup time; we fold it into the lookup). -/
def costLookup (raw : List RawRow) (m : String) (h : ℤ) : ℚ :=
  let g := raw.filter (fun r => decide (r.machine_id = m ∧ r.hour = h))
  if g.isEmpty then 15 / 100 else listAvg (g.map RawRow.energy_cost)

/-- The `pred_map` lookup with default `0`: the `predicted_demand` of the
last matching forecast row in table order (a Python dict comprehension keeps
the last write for duplicate keys), and `0` when no row matches. -/
def predLookup (fs : List ForecastRow) (m : String) (t : ℤ) : ℚ :=
  (((fs.filter (fun r => decide (r.machine_id = m ∧ r.timestamp = t))).getLast?).map
    ForecastRow.predicted_demand).getD 0

/-- Insert into a list sorted by the Boolean order `leB`. -/
def insertSortedBy {α : Type} (leB : α → α → Bool) : α → List α → List α
  | a, [] => [a]
  | a, b :: bs => if leB a b then a :: b :: bs else b :: insertSortedBy leB a bs

/-- Insertion sort by the Boolean order `leB`. -/
def sortByB {α : Type} (leB : α → α → Bool) : List α → List α
  | [] => []
  | a :: as => insertSortedBy leB a (sortByB leB as)

/-- Sorted deduplication, the effect of `np.unique` / `sorted(df.unique())`. -/
def sortedDedup {α : Type} [DecidableEq α] (leB : α → α → Bool) (l : List α) :
    List α :=
  sortByB leB l.dedup

/-- The LP data `optimize_all` hands to the solver, together with the data
needed to persist results.  `maxCap`, `epu`, `pred` and `costAt` are total
functions; `buildProblem` only produces a problem when every machine's
`specs_df.loc` lookup succeeds, so the `getD` defaults are never the values
actually used. -/
structure OptProblem where
  machines : List String
  timestamps : List ℤ
  maxCap : String → ℚ
  epu : String → ℚ
  pred : String → ℤ → ℚ
  costAt : String → ℤ → ℚ
  plantLimit : ℚ

/-- Steps 1–4 of `optimize_all` (variable creation, constraints, objective
data): the distinct sorted machines and timestamps of `forecasts`, the
per-machine averaged specs, the demand ceilings with default `0`, the cost
curve with default `0.15`, and the plant-wide limit
`specs_df['max_capacity'].sum() * 0.9`.  `none` models the uncaught
`KeyError` when a forecast machine is missing from `specs_df`. -/
def buildProblem (db : DB) : Option OptProblem :=
  let fs := db.forecasts
  let machines := sortedDedup (fun a b => !textLtB b a) (fs.map ForecastRow.machine_id)
  if machines.all (fun m => (specLookup db.raw_data m).isSome) then
    some
      { machines := machines
        timestamps := sortedDedup (fun a b => decide (a ≤ b)) (fs.map ForecastRow.timestamp)
        maxCap := fun m => ((specLookup db.raw_data m).getD (0, 0)).2
        epu := fun m => ((specLookup db.raw_data m).getD (0, 0)).1
        pred := fun m t => predLookup fs m t
        costAt := fun m h => costLookup db.raw_data m h
        plantLimit := capSum db.raw_data * (9 / 10) }
  else none

/-- The solver contract at status `OPTIMAL`: the returned point respects the
variable bounds `NumVar(0, max_cap)`, the demand-ceiling constraints and the
plant-wide capacity constraints that `optimize_all` added. -/
def feasibleB (p : OptProblem) (x : String → ℤ → ℚ) : Bool :=
  (p.machines.all fun m => p.timestamps.all fun t =>
    decide (0 ≤ x m t) && decide (x m t ≤ p.maxCap m) && decide (x m t ≤ p.pred m t))
  && (p.timestamps.all fun t =>
    decide ((p.machines.map (fun m => x m t)).sum ≤ p.plantLimit))

/-- One persisted result row of step 6 of `optimize_all`.  The stored
`baseline_production` is `int(baseline_prod)`, i.e. the truncation of
`min(pred, max_cap)`, while `base_cost` is computed from the untruncated
value; `hour` is the hour-of-day of the timestamp. -/
def mkOptRow (p : OptProblem) (x : String → ℤ → ℚ) (m : String) (t : ℤ) :
    OptRow :=
  let opt_prod := x m t
  let baseline_prod := min (p.pred m t) (p.maxCap m)
  let energy_cost := p.costAt m (t % 24)
  { timestamp := t
    machine_id := m
    hour := t % 24
    optimized_production := opt_prod
    baseline_production := ratTrunc baseline_prod
    optimized_cost := opt_prod * p.epu m * energy_cost
    baseline_cost := baseline_prod * p.epu m * energy_cost }

/-- The full result set: one row per machine per timestamp, in the nested
loop order of `optimize_all`. -/
def resultRows (p : OptProblem) (x : String → ℤ → ℚ) : List OptRow :=
  p.machines.flatMap (fun m => p.timestamps.map (fun t => mkOptRow p x m t))

/-- `optimize_all(conn)`.  `solverAvailable` models whether
`pywraplp.Solver.CreateSolver` succeeds; `solve` models `solver.Solve()`:
`some x` is status `OPTIMAL` with solution values `x`, `none` any
non-optimal status.  Results are persisted (DELETE FROM optimizations, then
the inserts) only in the `OPTIMAL` branch; every other path leaves the
database untouched. -/
def optimize_all (solverAvailable : Bool)
    (solve : OptProblem → Option (String → ℤ → ℚ)) (db : DB) : DB :=
  if db.forecasts.isEmpty then db
  else if !solverAvailable then db
  else
    match buildProblem db with
    | none => db
    | some p =>
        match solve p with
        | some x => { db with optimizations := resultRows p x }
        | none => db

/-! ## Concrete instances used by witnesses and counterexamples -/

/-- A `raw_data` row four days older than the latest one. -/
def oldRawRow : RawRow :=
  { timestamp := "2024-01-01 00:00:00", hour := 0, machine_id := "M1"
    energy_per_unit := 2, production_demand := 10, max_capacity := 100
    energy_cost := 1 / 10 }

/-- The latest `raw_data` row. -/
def recentRawRow : RawRow :=
  { timestamp := "2024-01-05 00:00:00", hour := 0, machine_id := "M1"
    energy_per_unit := 2, production_demand := 10, max_capacity := 50
    energy_cost := 1 / 10 }

/-- A database with one machine, one stale and one recent observation, and
one forecast row with a fractional predicted demand. -/
def demoDB : DB :=
  { raw_data := [oldRawRow, recentRawRow]
    forecasts := [{ timestamp := 0, machine_id := "M1", predicted_demand := 1 / 2 }]
    optimizations := [] }

/-- A solver oracle that reports `OPTIMAL` with the all-zero point. -/
def demoSolve : OptProblem → Option (String → ℤ → ℚ) :=
  fun _ => some (fun _ _ => 0)

/-- The problem `optimize_all` builds from `demoDB`. -/
def demoProblem : OptProblem :=
  (buildProblem demoDB).getD
    { machines := [], timestamps := [], maxCap := fun _ => 0, epu := fun _ => 0
      pred := fun _ _ => 0, costAt := fun _ _ => 0, plantLimit := 0 }

example : specFilter demoDB.raw_data oldRawRow = true := by decide
example : specLookup demoDB.raw_data "M1" = some (2, 75) := by
  with_unfolding_all decide
example : buildProblem demoDB = some demoProblem := by with_unfolding_all rfl
example : demoProblem.maxCap "M1" = 75 := by with_unfolding_all decide
example : (optimize_all true demoSolve demoDB).optimizations =
    [{ timestamp := 0, machine_id := "M1", hour := 0, optimized_production := 0,
       baseline_production := 0, optimized_cost := 0, baseline_cost := 1 / 10 }] := by
  with_unfolding_all decide
example : feasibleB demoProblem (fun _ _ => 0) = true := by with_unfolding_all decide

/-! ## Helper lemmas -/

theorem make_sequences_fst_length (series : List ℚ) (window : ℕ) :
    (make_sequences series window).1.length = series.length - window := by
  simp [make_sequences]

theorem lstmRollout_length (model : List ℚ → ℚ) :
    ∀ (steps : ℕ) (window : List ℚ), (lstmRollout model steps window).length = steps
  | 0, _ => rfl
  | steps + 1, window => by
      simp [lstmRollout, lstmRollout_length model steps]

theorem insertRows_length (m : String) (b : ℤ) (ps : List ℚ) :
    (insertRows m b ps).length = ps.length := by
  simp [insertRows]

theorem fst_bound_of_mem_enumFrom {α : Type} :
    ∀ (l : List α) (n : ℕ) (p : ℕ × α), p ∈ l.enumFrom n → p.1 < n + l.length := by
  intro l
  induction l with
  | nil => intro n p h; simp [List.enumFrom] at h
  | cons a as ih =>
      intro n p h
      rw [List.enumFrom_cons] at h
      rcases List.mem_cons.1 h with rfl | h2
      · simp
      · have := ih (n + 1) p h2
        simp only [List.length_cons]
        omega

theorem mem_insertRows {m : String} {b : ℤ} {ps : List ℚ} {r : ForecastRow}
    (h : r ∈ insertRows m b ps) :
    r.machine_id = m ∧ b + 1 ≤ r.timestamp ∧ r.timestamp ≤ b + (ps.length : ℤ) := by
  unfold insertRows at h
  obtain ⟨iv, hiv, rfl⟩ := List.mem_map.1 h
  have hb : iv.1 < ps.length := by
    have := fst_bound_of_mem_enumFrom ps 0 iv (List.enum_eq_enumFrom ▸ hiv)
    omega
  exact ⟨rfl, by simp; try omega, by simp; try omega⟩

/-- The horizon predicate of the DELETE statement of `persist_forecasts`. -/
def hzB (mid : String) (base : ℤ) (len : ℕ) (r : ForecastRow) : Bool :=
  decide (r.machine_id = mid ∧ base + 1 ≤ r.timestamp ∧
    r.timestamp ≤ base + (len : ℤ))

theorem persist_forecasts_eq (tbl : List ForecastRow) (mid : String) (base : ℤ)
    (preds : List ℚ) :
    persist_forecasts tbl mid base preds =
      tbl.filter (fun r => !hzB mid base preds.length r) ++ insertRows mid base preds := rfl

theorem hzB_insertRows {mid : String} {base : ℤ} {preds : List ℚ} {r : ForecastRow}
    (h : r ∈ insertRows mid base preds) : hzB mid base preds.length r = true := by
  have := mem_insertRows h
  simp [hzB]
  exact this

theorem filter_hz_persist (tbl : List ForecastRow) (mid : String) (base : ℤ)
    (preds : List ℚ) :
    (persist_forecasts tbl mid base preds).filter (hzB mid base preds.length) =
      insertRows mid base preds := by
  rw [persist_forecasts_eq, List.filter_append]
  have h1 : (tbl.filter (fun r => !hzB mid base preds.length r)).filter
      (hzB mid base preds.length) = [] := by
    rw [List.filter_filter]
    refine List.filter_eq_nil_iff.2 (fun r _ => ?_)
    cases hzB mid base preds.length r <;> simp
  have h2 : (insertRows mid base preds).filter (hzB mid base preds.length) =
      insertRows mid base preds :=
    List.filter_eq_self.2 (fun r hr => hzB_insertRows hr)
  rw [h1, h2, List.nil_append]

/-- **C6**: `persist_forecasts` deletes exactly the machine's rows in
`[base_time + 1h, base_time + steps·h]` and inserts one row per prediction at
hourly cadence starting at `base_time + 1h`; running it twice with the same
arguments leaves exactly `preds.length` rows for that machine in that
horizon, namely the inserted points themselves, with the `i`-th row at
timestamp `base_time + 1 + i` carrying the `i`-th prediction. -/
theorem persist_forecasts_idempotent_horizon (tbl : List ForecastRow)
    (mid : String) (base : ℤ) (preds : List ℚ) :
    (persist_forecasts (persist_forecasts tbl mid base preds) mid base preds).filter
        (hzB mid base preds.length) = insertRows mid base preds ∧
    ((persist_forecasts (persist_forecasts tbl mid base preds) mid base preds).filter
        (hzB mid base preds.length)).length = preds.length ∧
    (insertRows mid base preds).map ForecastRow.timestamp =
      (List.range preds.length).map (fun i : ℕ => base + (i : ℤ) + 1) ∧
    (insertRows mid base preds).map ForecastRow.predicted_demand = preds ∧
    (insertRows mid base preds).map ForecastRow.machine_id =
      List.replicate preds.length mid := by
  refine ⟨filter_hz_persist _ _ _ _, ?_, ?_, ?_, ?_⟩
  · rw [filter_hz_persist, insertRows_length]
  · unfold insertRows
    rw [List.map_map, List.enum_eq_enumFrom]
    have : (ForecastRow.timestamp ∘ fun iv : ℕ × ℚ =>
        ForecastRow.mk (base + (iv.1 : ℤ) + 1) mid iv.2) =
        (fun i : ℕ => base + (i : ℤ) + 1) ∘ Prod.fst := rfl
    rw [this, ← List.map_map, List.enumFrom_map_fst, List.range_eq_range']
  · unfold insertRows
    rw [List.map_map, List.enum_eq_enumFrom]
    have : (ForecastRow.predicted_demand ∘ fun iv : ℕ × ℚ =>
        ForecastRow.mk (base + (iv.1 : ℤ) + 1) mid iv.2) = Prod.snd := rfl
    rw [this, List.enumFrom_map_snd]
  · unfold insertRows
    rw [List.map_map]
    have hc : (ForecastRow.machine_id ∘ fun iv : ℕ × ℚ =>
        ForecastRow.mk (base + (iv.1 : ℤ) + 1) mid iv.2) = fun _ => mid := rfl
    rw [hc, List.map_const']
    simp

/-- **C7**: `persist_forecasts` for machine `mid` over a horizon leaves every
row of a different machine unchanged, and leaves every row of machine `mid`
with a timestamp outside `[base_time + 1h, base_time + steps·h]` unchanged. -/
theorem persist_forecasts_frame (tbl : List ForecastRow) (mid : String)
    (base : ℤ) (preds : List ℚ) :
    (persist_forecasts tbl mid base preds).filter
        (fun r => !decide (r.machine_id = mid)) =
      tbl.filter (fun r => !decide (r.machine_id = mid)) ∧
    (persist_forecasts tbl mid base preds).filter
        (fun r => decide (r.machine_id = mid ∧
          ¬(base + 1 ≤ r.timestamp ∧ r.timestamp ≤ base + (preds.length : ℤ)))) =
      tbl.filter
        (fun r => decide (r.machine_id = mid ∧
          ¬(base + 1 ≤ r.timestamp ∧ r.timestamp ≤ base + (preds.length : ℤ)))) := by
  constructor
  · rw [persist_forecasts_eq, List.filter_append]
    have h1 : (insertRows mid base preds).filter
        (fun r => !decide (r.machine_id = mid)) = [] :=
      List.filter_eq_nil_iff.2 (fun r hr => by
        have := (mem_insertRows hr).1
        simp [this])
    have h2 : (tbl.filter (fun r => !hzB mid base preds.length r)).filter
        (fun r => !decide (r.machine_id = mid)) =
        tbl.filter (fun r => !decide (r.machine_id = mid)) := by
      rw [List.filter_filter]
      refine List.filter_congr (fun r _ => ?_)
      by_cases hm : r.machine_id = mid <;> simp [hm, hzB]
    rw [h1, h2, List.append_nil]
  · rw [persist_forecasts_eq, List.filter_append]
    have h1 : (insertRows mid base preds).filter
        (fun r => decide (r.machine_id = mid ∧
          ¬(base + 1 ≤ r.timestamp ∧ r.timestamp ≤ base + (preds.length : ℤ)))) = [] :=
      List.filter_eq_nil_iff.2 (fun r hr => by
        have h := mem_insertRows hr
        simp only [decide_eq_true_eq]
        rintro ⟨-, hno⟩
        exact hno ⟨h.2.1, h.2.2⟩)
    have h2 : (tbl.filter (fun r => !hzB mid base preds.length r)).filter
        (fun r => decide (r.machine_id = mid ∧
          ¬(base + 1 ≤ r.timestamp ∧ r.timestamp ≤ base + (preds.length : ℤ)))) =
        tbl.filter (fun r => decide (r.machine_id = mid ∧
          ¬(base + 1 ≤ r.timestamp ∧ r.timestamp ≤ base + (preds.length : ℤ)))) := by
      rw [List.filter_filter]
      refine List.filter_congr (fun r _ => ?_)
      by_cases hm : r.machine_id = mid <;>
        by_cases hh : base + 1 ≤ r.timestamp ∧ r.timestamp ≤ base + (preds.length : ℤ) <;>
        simp [hm, hh, hzB]
    rw [h1, h2, List.append_nil]

/-- **C8**: `lstm_forecast` raises its insufficient-data error exactly when
the series has length < 34 (fewer than 10 usable windows of length 24), and
`arima_forecast` raises its insufficient-data error exactly when the series
has length < 30, whatever the external models then do. -/
theorem forecast_insufficient_data_thresholds (lcrash acrash : Bool)
    (lmodel : List ℚ → ℚ) (amodel : List ℚ → ℕ → List ℚ) (series : List ℚ)
    (steps : ℕ) :
    (lstm_forecast lcrash lmodel series steps =
        Except.error "Not enough data to train LSTM model." ↔
      series.length < 34) ∧
    (arima_forecast acrash amodel series steps =
        Except.error "Not enough data for ARIMA model." ↔
      series.length < 30) := by
  constructor
  · unfold lstm_forecast
    rw [make_sequences_fst_length]
    by_cases h : series.length - 24 < 10
    · rw [if_pos h]
      exact ⟨fun _ => by omega, fun _ => rfl⟩
    · rw [if_neg h]
      have hn : ¬series.length < 34 := by omega
      by_cases hc : lcrash
      · rw [if_pos hc]
        exact ⟨fun he => absurd (Except.error.inj he) (by decide),
               fun h34 => absurd h34 hn⟩
      · rw [if_neg hc]
        exact ⟨fun he => by simp at he, fun h34 => absurd h34 hn⟩
  · unfold arima_forecast
    by_cases h : series.length < 30
    · rw [if_pos h]
      exact ⟨fun _ => h, fun _ => rfl⟩
    · rw [if_neg h]
      by_cases hc : acrash
      · rw [if_pos hc]
        exact ⟨fun he => absurd (Except.error.inj he) (by decide),
               fun h30 => absurd h30 h⟩
      · rw [if_neg hc]
        exact ⟨fun he => by simp at he, fun h30 => absurd h30 h⟩

/-- An environment in which both optional libraries are available and the
external models are well behaved. -/
def demoEnvBoth : ForecastEnv :=
  { tf_available := true
    sm_available := true
    lstm_model := fun _ => 0
    arima_model := fun _ n => List.replicate n 0
    lstm_crash := fun _ => false
    arima_crash := fun _ => false }

/-- A demand history of length 30. -/
def series30 : List ℚ := List.replicate 30 0

/-- **C3** (counterexample): with both libraries available and a history of
length 30 (in `[30, 34)`), the engine uses the naive strategy, not the
statistical (ARIMA) one: the LSTM attempt raises for insufficient data and
the `except` clause of `forecast.main` falls straight back to naive. -/
theorem strategy_length30_not_arima :
    30 ≤ series30.length ∧ series30.length < 34 ∧
    strategyUsed demoEnvBoth series30 = UsedStrategy.naive ∧
    strategyUsed demoEnvBoth series30 ≠ UsedStrategy.arima := by decide

/-- **C3** (amended): the strategy actually used is determined first by
library availability and only then by history length: with TensorFlow
available, LSTM runs iff the length is ≥ 34 and training succeeds
(returning exactly 24 values) and otherwise the naive strategy is used —
ARIMA is never attempted; ARIMA is used only when TensorFlow is unavailable,
statsmodels is available, the length is ≥ 30 and fitting succeeds; in every
remaining case the naive strategy is used. -/
theorem strategy_selection_characterization (env : ForecastEnv)
    (series : List ℚ) :
    strategyUsed env series =
      (if env.tf_available then
        if 34 ≤ series.length ∧ env.lstm_crash series = false then
          UsedStrategy.lstm
        else UsedStrategy.naive
      else if env.sm_available then
        if 30 ≤ series.length ∧ env.arima_crash series = false then
          UsedStrategy.arima
        else UsedStrategy.naive
      else UsedStrategy.naive) ∧
    (forecastMachine env series).length =
      (if env.tf_available = false ∧ env.sm_available = true ∧
          30 ≤ series.length ∧ env.arima_crash series = false then
        (env.arima_model series 24).length
      else 24) := by
  unfold strategyUsed forecastMachine tryStrategy lstm_forecast arima_forecast
  rw [make_sequences_fst_length]
  by_cases htf : env.tf_available
  · by_cases h34 : series.length - 24 < 10
    · have hc : ¬(34 ≤ series.length ∧ env.lstm_crash series = false) := by
        rintro ⟨h, _⟩; omega
      simp [htf, h34, hc]
    · by_cases hcr : env.lstm_crash series
      · have hc : ¬(34 ≤ series.length ∧ env.lstm_crash series = false) := by
          rintro ⟨_, h⟩; rw [hcr] at h; exact absurd h (by decide)
        simp [htf, h34, hcr, hc]
      · have hc : 34 ≤ series.length ∧ env.lstm_crash series = false := by
          refine ⟨by omega, by simpa using hcr⟩
        simp [htf, h34, hcr, hc, lstmRollout_length]
  · by_cases hsm : env.sm_available
    · by_cases h30 : series.length < 30
      · have hc : ¬(30 ≤ series.length ∧ env.arima_crash series = false) := by
          rintro ⟨h, _⟩; omega
        simp [htf, hsm, h30, hc]
      · by_cases hcr : env.arima_crash series
        · have hc : ¬(30 ≤ series.length ∧ env.arima_crash series = false) := by
            rintro ⟨_, h⟩; rw [hcr] at h; exact absurd h (by decide)
          simp [htf, hsm, h30, hcr, hc]
        · have hc : 30 ≤ series.length ∧ env.arima_crash series = false := by
            refine ⟨by omega, by simpa using hcr⟩
          simp [htf, hsm, h30, hcr, hc]
    · simp [htf, hsm]

theorem forecastBatch_cons (env : ForecastEnv) (base : ℤ)
    (d : String × List ℚ) (rest : List (String × List ℚ))
    (tbl : List ForecastRow) :
    forecastBatch env base (d :: rest) tbl =
      forecastBatch env base rest
        (persist_forecasts tbl d.1 base (forecastMachine env d.2)) := rfl

theorem filter_machine_persist_ne {m mid : String} (hne : m ≠ mid)
    (tbl : List ForecastRow) (base : ℤ) (preds : List ℚ) :
    (persist_forecasts tbl mid base preds).filter
        (fun r => decide (r.machine_id = m)) =
      tbl.filter (fun r => decide (r.machine_id = m)) := by
  rw [persist_forecasts_eq, List.filter_append]
  have h1 : (insertRows mid base preds).filter
      (fun r => decide (r.machine_id = m)) = [] :=
    List.filter_eq_nil_iff.2 (fun r hr => by
      have := (mem_insertRows hr).1
      simp [this, hne.symm])
  have h2 : (tbl.filter (fun r => !hzB mid base preds.length r)).filter
      (fun r => decide (r.machine_id = m)) =
      tbl.filter (fun r => decide (r.machine_id = m)) := by
    rw [List.filter_filter]
    refine List.filter_congr (fun r _ => ?_)
    by_cases hm : r.machine_id = m
    · have : r.machine_id ≠ mid := by rw [hm]; exact hne
      simp [hm, hzB, this]
      exact Or.inl hne
    · simp [hm]
  rw [h1, h2, List.append_nil]

theorem filter_machine_and_persist_ne {m mid : String} (hne : m ≠ mid)
    (Q : ForecastRow → Prop) [DecidablePred Q]
    (tbl : List ForecastRow) (base : ℤ) (preds : List ℚ) :
    (persist_forecasts tbl mid base preds).filter
        (fun r => decide (r.machine_id = m ∧ Q r)) =
      tbl.filter (fun r => decide (r.machine_id = m ∧ Q r)) := by
  rw [persist_forecasts_eq, List.filter_append]
  have h1 : (insertRows mid base preds).filter
      (fun r => decide (r.machine_id = m ∧ Q r)) = [] :=
    List.filter_eq_nil_iff.2 (fun r hr => by
      have := (mem_insertRows hr).1
      simp [this, hne.symm])
  have h2 : (tbl.filter (fun r => !hzB mid base preds.length r)).filter
      (fun r => decide (r.machine_id = m ∧ Q r)) =
      tbl.filter (fun r => decide (r.machine_id = m ∧ Q r)) := by
    rw [List.filter_filter]
    refine List.filter_congr (fun r _ => ?_)
    by_cases hm : r.machine_id = m
    · have hmid : r.machine_id ≠ mid := by rw [hm]; exact hne
      by_cases hq : Q r <;> simp [hm, hq, hzB, hmid]
      exact Or.inl hne
    · simp [hm]
  rw [h1, h2, List.append_nil]

theorem filter_machine_persist_self (tbl : List ForecastRow) (mid : String)
    (base : ℤ) (preds : List ℚ) :
    (persist_forecasts tbl mid base preds).filter
        (fun r => decide (r.machine_id = mid)) =
      tbl.filter (fun r => decide (r.machine_id = mid ∧
        ¬(base + 1 ≤ r.timestamp ∧ r.timestamp ≤ base + (preds.length : ℤ)))) ++
      insertRows mid base preds := by
  rw [persist_forecasts_eq, List.filter_append]
  have h1 : (insertRows mid base preds).filter
      (fun r => decide (r.machine_id = mid)) = insertRows mid base preds :=
    List.filter_eq_self.2 (fun r hr => by
      have := (mem_insertRows hr).1
      simp [this])
  have h2 : (tbl.filter (fun r => !hzB mid base preds.length r)).filter
      (fun r => decide (r.machine_id = mid)) =
      tbl.filter (fun r => decide (r.machine_id = mid ∧
        ¬(base + 1 ≤ r.timestamp ∧ r.timestamp ≤ base + (preds.length : ℤ)))) := by
    rw [List.filter_filter]
    refine List.filter_congr (fun r _ => ?_)
    by_cases hm : r.machine_id = mid <;>
      by_cases hh : base + 1 ≤ r.timestamp ∧ r.timestamp ≤ base + (preds.length : ℤ) <;>
      simp [hm, hh, hzB]
  rw [h1, h2]

theorem filter_machine_forecastBatch_notmem (env : ForecastEnv) (base : ℤ) :
    ∀ (data : List (String × List ℚ)) (tbl : List ForecastRow) (m : String),
      m ∉ data.map Prod.fst →
      (forecastBatch env base data tbl).filter
          (fun r => decide (r.machine_id = m)) =
        tbl.filter (fun r => decide (r.machine_id = m)) := by
  intro data
  induction data with
  | nil => intro tbl m _; rfl
  | cons d rest ih =>
      intro tbl m h
      rw [List.map_cons, List.mem_cons] at h
      push_neg at h
      rw [forecastBatch_cons, ih _ m h.2,
        filter_machine_persist_ne h.1 tbl base (forecastMachine env d.2)]

theorem forecastBatch_machine_slice (env : ForecastEnv) (base : ℤ) :
    ∀ (data : List (String × List ℚ)) (tbl : List ForecastRow) (m : String)
      (s : List ℚ), (data.map Prod.fst).Nodup → (m, s) ∈ data →
      (forecastBatch env base data tbl).filter
          (fun r => decide (r.machine_id = m)) =
        tbl.filter (fun r => decide (r.machine_id = m ∧
          ¬(base + 1 ≤ r.timestamp ∧
            r.timestamp ≤ base + ((forecastMachine env s).length : ℤ)))) ++
        insertRows m base (forecastMachine env s) := by
  intro data
  induction data with
  | nil => intro tbl m s _ hm; cases hm
  | cons d rest ih =>
      intro tbl m s hnd hm
      rw [forecastBatch_cons]
      rcases List.mem_cons.1 hm with heq | hmem
      · have hd : d = (m, s) := heq.symm
        subst hd
        have hnotin : m ∉ rest.map Prod.fst := by
          rw [List.map_cons] at hnd
          exact (List.nodup_cons.1 hnd).1
        rw [filter_machine_forecastBatch_notmem env base rest _ m hnotin]
        exact filter_machine_persist_self tbl m base (forecastMachine env s)
      · have hmfst : m ∈ rest.map Prod.fst := List.mem_map.2 ⟨(m, s), hmem, rfl⟩
        have hnd2 : (rest.map Prod.fst).Nodup := by
          rw [List.map_cons] at hnd
          exact (List.nodup_cons.1 hnd).2
        have hne : m ≠ d.1 := by
          intro hc
          rw [List.map_cons] at hnd
          exact (List.nodup_cons.1 hnd).1 (hc ▸ hmfst)
        rw [ih _ m s hnd2 hmem,
          filter_machine_and_persist_ne hne _ tbl base (forecastMachine env d.2)]

/-- **C5**: when a machine's chosen advanced strategy raises, the engine
falls back, for that machine only, to the naive forecast — exactly 24
copies of the machine's last observed value — and in the batch the rows
persisted for any machine of the batch are exactly a function of that
machine's own series and the prior table contents: one machine's failure
has no effect on the others, and the batch never aborts (`forecastBatch`
is total). -/
theorem forecast_failure_isolated (env : ForecastEnv) (base : ℤ)
    (data : List (String × List ℚ)) (tbl : List ForecastRow) (m : String)
    (s : List ℚ) (hnd : (data.map Prod.fst).Nodup) (hm : (m, s) ∈ data) :
    (∀ e, tryStrategy env s = Except.error e →
      forecastMachine env s = List.replicate 24 (s.getLastD 0)) ∧
    (forecastBatch env base data tbl).filter
        (fun r => decide (r.machine_id = m)) =
      tbl.filter (fun r => decide (r.machine_id = m ∧
        ¬(base + 1 ≤ r.timestamp ∧
          r.timestamp ≤ base + ((forecastMachine env s).length : ℤ)))) ++
      insertRows m base (forecastMachine env s) :=
  ⟨fun e he => by unfold forecastMachine; rw [he],
   forecastBatch_machine_slice env base data tbl m s hnd hm⟩

/-- An environment in which both libraries are importable but TensorFlow
raises during training on every series. -/
def demoEnvCrash : ForecastEnv :=
  { tf_available := true
    sm_available := true
    lstm_model := fun _ => 0
    arima_model := fun _ n => List.replicate n 0
    lstm_crash := fun _ => true
    arima_crash := fun _ => false }

/-- The per-machine series of a two-machine batch. -/
def demoData : List (String × List ℚ) :=
  [("M1", List.replicate 40 3), ("M2", List.replicate 5 7)]

/-- Witness for `forecast_failure_isolated` at a concrete batch: machine M1
has 40 observations, its LSTM attempt crashes, and the batch still persists
naive rows for it while machine M2 is untouched by the failure. -/
theorem forecast_failure_isolated_witness :
    ((demoData.map Prod.fst).Nodup ∧ ("M1", List.replicate 40 (3 : ℚ)) ∈ demoData) ∧
    ((∀ e, tryStrategy demoEnvCrash (List.replicate 40 (3 : ℚ)) = Except.error e →
      forecastMachine demoEnvCrash (List.replicate 40 (3 : ℚ)) =
        List.replicate 24 ((List.replicate 40 (3 : ℚ)).getLastD 0)) ∧
    (forecastBatch demoEnvCrash 0 demoData []).filter
        (fun r => decide (r.machine_id = "M1")) =
      ([] : List ForecastRow).filter (fun r => decide (r.machine_id = "M1" ∧
        ¬(0 + 1 ≤ r.timestamp ∧ r.timestamp ≤ 0 +
          ((forecastMachine demoEnvCrash (List.replicate 40 (3 : ℚ))).length : ℤ)))) ++
      insertRows "M1" 0 (forecastMachine demoEnvCrash (List.replicate 40 (3 : ℚ)))) :=
  ⟨⟨by decide, by decide⟩,
   forecast_failure_isolated demoEnvCrash 0 demoData [] "M1"
     (List.replicate 40 (3 : ℚ)) (by decide) (by decide)⟩

/-! ## Optimizer helper lemmas -/

theorem insertSortedBy_perm {α : Type} (leB : α → α → Bool) (a : α) :
    ∀ l : List α, (insertSortedBy leB a l).Perm (a :: l) := by
  intro l
  induction l with
  | nil => exact List.Perm.refl _
  | cons b bs ih =>
      unfold insertSortedBy
      by_cases h : leB a b
      · rw [if_pos h]
      · rw [if_neg h]
        exact (ih.cons b).trans (List.Perm.swap a b bs)

theorem sortByB_perm {α : Type} (leB : α → α → Bool) :
    ∀ l : List α, (sortByB leB l).Perm l := by
  intro l
  induction l with
  | nil => exact List.Perm.refl _
  | cons a as ih =>
      exact (insertSortedBy_perm leB a (sortByB leB as)).trans (ih.cons a)

theorem mem_sortedDedup {α : Type} [DecidableEq α] (leB : α → α → Bool)
    (l : List α) (a : α) : a ∈ sortedDedup leB l ↔ a ∈ l := by
  unfold sortedDedup
  rw [(sortByB_perm leB l.dedup).mem_iff, List.mem_dedup]

theorem nodup_sortedDedup {α : Type} [DecidableEq α] (leB : α → α → Bool)
    (l : List α) : (sortedDedup leB l).Nodup :=
  ((sortByB_perm leB l.dedup).nodup_iff).2 (List.nodup_dedup l)

theorem feasible_spec {p : OptProblem} {x : String → ℤ → ℚ}
    (h : feasibleB p x = true) :
    (∀ m ∈ p.machines, ∀ t ∈ p.timestamps,
      0 ≤ x m t ∧ x m t ≤ p.maxCap m ∧ x m t ≤ p.pred m t) ∧
    (∀ t ∈ p.timestamps,
      (p.machines.map (fun m => x m t)).sum ≤ p.plantLimit) := by
  unfold feasibleB at h
  rw [Bool.and_eq_true] at h
  obtain ⟨h1, h2⟩ := h
  constructor
  · intro m hm t ht
    have hmt := List.all_eq_true.1 (List.all_eq_true.1 h1 m hm) t ht
    simp only [Bool.and_eq_true, decide_eq_true_eq] at hmt
    exact ⟨hmt.1.1, hmt.1.2, hmt.2⟩
  · intro t ht
    have hp := List.all_eq_true.1 h2 t ht
    simpa using hp

theorem optimize_all_success {solve : OptProblem → Option (String → ℤ → ℚ)}
    {db : DB} {p : OptProblem} {x : String → ℤ → ℚ}
    (hne : db.forecasts ≠ []) (hb : buildProblem db = some p)
    (hs : solve p = some x) :
    optimize_all true solve db = { db with optimizations := resultRows p x } := by
  have h0 : db.forecasts.isEmpty = false := by
    cases h : db.forecasts with
    | nil => exact absurd h hne
    | cons a l => rfl
  simp [optimize_all, h0, hb, hs]

theorem mem_resultRows {p : OptProblem} {x : String → ℤ → ℚ} {r : OptRow}
    (h : r ∈ resultRows p x) :
    ∃ m ∈ p.machines, ∃ t ∈ p.timestamps, r = mkOptRow p x m t := by
  unfold resultRows at h
  obtain ⟨m, hm, hr⟩ := List.mem_flatMap.1 h
  obtain ⟨t, ht, rfl⟩ := List.mem_map.1 hr
  exact ⟨m, hm, t, ht, rfl⟩

theorem mkOptRow_machine_id (p : OptProblem) (x : String → ℤ → ℚ)
    (m : String) (t : ℤ) : (mkOptRow p x m t).machine_id = m := rfl

theorem mkOptRow_timestamp (p : OptProblem) (x : String → ℤ → ℚ)
    (m : String) (t : ℤ) : (mkOptRow p x m t).timestamp = t := rfl

theorem filter_eq_singleton_of_nodup {α : Type} [DecidableEq α] {l : List α}
    (hl : l.Nodup) {a : α} (ha : a ∈ l) :
    l.filter (fun b => decide (b = a)) = [a] := by
  induction l with
  | nil => cases ha
  | cons b bs ih =>
      rw [List.nodup_cons] at hl
      rcases List.mem_cons.1 ha with rfl | h
      · have hrest : bs.filter (fun c => decide (c = a)) = [] :=
          List.filter_eq_nil_iff.2 (fun c hc hcb => by
            rw [decide_eq_true_eq] at hcb
            exact hl.1 (hcb ▸ hc))
        simp [List.filter_cons, hrest]
      · have hba : ¬b = a := fun hc => hl.1 (hc ▸ h)
        simp [List.filter_cons, hba, ih hl.2 h]

theorem filter_eq_nil_of_not_mem {α : Type} [DecidableEq α] {l : List α}
    {a : α} (ha : a ∉ l) : l.filter (fun b => decide (b = a)) = [] :=
  List.filter_eq_nil_iff.2 (fun b hb hba => by
    rw [decide_eq_true_eq] at hba
    exact ha (hba ▸ hb))

theorem flatMap_filter_ts (p : OptProblem) (x : String → ℤ → ℚ)
    (hnt : p.timestamps.Nodup) {t : ℤ} (ht : t ∈ p.timestamps) :
    ∀ ms : List String,
      ((ms.flatMap (fun m => p.timestamps.map (fun t0 => mkOptRow p x m t0))).filter
          (fun r => decide (r.timestamp = t))).map OptRow.optimized_production =
        ms.map (fun m => x m t) := by
  intro ms
  induction ms with
  | nil => rfl
  | cons m ms ih =>
      rw [List.flatMap_cons, List.filter_append, List.map_append, ih,
        List.map_cons, List.filter_map]
      have hpf : ((fun r : OptRow => decide (r.timestamp = t)) ∘
          (fun t0 => mkOptRow p x m t0)) = fun t0 => decide (t0 = t) := rfl
      rw [hpf, filter_eq_singleton_of_nodup hnt ht]
      rfl

theorem timestamps_block_count (p : OptProblem) (x : String → ℤ → ℚ)
    (m' m : String) (t : ℤ) :
    ((p.timestamps.map (fun t0 => mkOptRow p x m' t0)).filter
        (fun r => decide (r.machine_id = m ∧ r.timestamp = t))).length =
      if m' = m then
        (p.timestamps.filter (fun t0 => decide (t0 = t))).length
      else 0 := by
  rw [List.filter_map, List.length_map]
  by_cases hm : m' = m
  · subst hm
    rw [if_pos rfl]
    congr 1
    refine List.filter_congr (fun t0 _ => ?_)
    simp [mkOptRow]
  · rw [if_neg hm]
    have : (p.timestamps.filter ((fun r : OptRow =>
        decide (r.machine_id = m ∧ r.timestamp = t)) ∘
        (fun t0 => mkOptRow p x m' t0))) = [] :=
      List.filter_eq_nil_iff.2 (fun t0 _ hc => by
        simp only [Function.comp_apply, mkOptRow, decide_eq_true_eq] at hc
        exact hm hc.1)
    rw [this]
    rfl

theorem resultRows_count (p : OptProblem) (x : String → ℤ → ℚ)
    (hnm : p.machines.Nodup) (hnt : p.timestamps.Nodup) (m : String) (t : ℤ) :
    ((resultRows p x).filter
        (fun r => decide (r.machine_id = m ∧ r.timestamp = t))).length =
      if m ∈ p.machines ∧ t ∈ p.timestamps then 1 else 0 := by
  unfold resultRows
  generalize p.machines = ms0 at hnm ⊢
  induction ms0 with
  | nil => simp
  | cons m' ms ih =>
      rw [List.nodup_cons] at hnm
      rw [List.flatMap_cons, List.filter_append, List.length_append,
        ih hnm.2, timestamps_block_count]
      by_cases hm : m' = m
      · subst hm
        have hnotin : ¬(m' ∈ ms ∧ t ∈ p.timestamps) := fun hc => hnm.1 hc.1
        rw [if_pos rfl, if_neg hnotin]
        by_cases ht : t ∈ p.timestamps
        · rw [filter_eq_singleton_of_nodup hnt ht,
            if_pos ⟨List.mem_cons_self m' ms, ht⟩]
          rfl
        · rw [filter_eq_nil_of_not_mem ht,
            if_neg (fun hc => ht hc.2)]
          rfl
      · rw [if_neg hm]
        have hmem : m ∈ m' :: ms ↔ m ∈ ms := by
          rw [List.mem_cons]
          exact ⟨fun h => h.elim (fun he => absurd he.symm hm) id, Or.inr⟩
        by_cases hms : m ∈ ms ∧ t ∈ p.timestamps
        · rw [if_pos hms, if_pos ⟨hmem.2 hms.1, hms.2⟩]
        · rw [if_neg hms, if_neg (fun hc => hms ⟨hmem.1 hc.1, hc.2⟩)]

theorem predLookup_eq_zero {fs : List ForecastRow} {m : String} {t : ℤ}
    (h : ∀ f ∈ fs, ¬(f.machine_id = m ∧ f.timestamp = t)) :
    predLookup fs m t = 0 := by
  unfold predLookup
  have hnil : fs.filter (fun r => decide (r.machine_id = m ∧ r.timestamp = t)) = [] :=
    List.filter_eq_nil_iff.2 (fun f hf hc => by
      rw [decide_eq_true_eq] at hc
      exact h f hf hc)
  rw [hnil]
  rfl

theorem buildProblem_elim {db : DB} {p : OptProblem}
    (hb : buildProblem db = some p) :
    p = { machines := sortedDedup (fun a b => !textLtB b a)
            (db.forecasts.map ForecastRow.machine_id)
          timestamps := sortedDedup (fun a b => decide (a ≤ b))
            (db.forecasts.map ForecastRow.timestamp)
          maxCap := fun m => ((specLookup db.raw_data m).getD (0, 0)).2
          epu := fun m => ((specLookup db.raw_data m).getD (0, 0)).1
          pred := fun m t => predLookup db.forecasts m t
          costAt := fun m h => costLookup db.raw_data m h
          plantLimit := capSum db.raw_data * (9 / 10) } := by
  simp only [buildProblem] at hb
  split at hb
  · exact (Option.some.inj hb).symm
  · cases hb

theorem mkOptRow_opt (p : OptProblem) (x : String → ℤ → ℚ) (m : String)
    (t : ℤ) : (mkOptRow p x m t).optimized_production = x m t := rfl

theorem resultRows_filter_ts (p : OptProblem) (x : String → ℤ → ℚ)
    (hnt : p.timestamps.Nodup) {t : ℤ} (ht : t ∈ p.timestamps) :
    ((resultRows p x).filter (fun r => decide (r.timestamp = t))).map
        OptRow.optimized_production =
      p.machines.map (fun m => x m t) := by
  unfold resultRows
  exact flatMap_filter_ts p x hnt ht p.machines

theorem mkOptRow_baseline (p : OptProblem) (x : String → ℤ → ℚ) (m : String)
    (t : ℤ) : (mkOptRow p x m t).baseline_production =
      ratTrunc (min (p.pred m t) (p.maxCap m)) := rfl

/-! ## Optimization claims -/

/-- **C2**: on any failure — empty forecast set, solver construction
failure, or a non-optimal solver status — the optimization run terminates
without deleting or inserting anything: the whole database, and in
particular the `optimizations` table, is left exactly as it was. -/
theorem optimize_failure_writes_nothing (sa : Bool)
    (solve : OptProblem → Option (String → ℤ → ℚ)) (db : DB)
    (h : db.forecasts = [] ∨ sa = false ∨
      ∀ p, buildProblem db = some p → solve p = none) :
    optimize_all sa solve db = db := by
  rcases h with h | h | h
  · simp [optimize_all, h]
  · subst h
    simp [optimize_all]
  · by_cases h0 : db.forecasts.isEmpty
    · simp [optimize_all, h0]
    · cases sa with
      | false => simp [optimize_all, h0]
      | true =>
          unfold optimize_all
          rw [if_neg h0, if_neg (by decide)]
          cases hb : buildProblem db with
          | none => rfl
          | some p =>
              show (match solve p with
                | some x => { db with optimizations := resultRows p x }
                | none => db) = db
              rw [h p hb]

/-- A stale optimization row left over from a previous run. -/
def staleOptRow : OptRow :=
  { timestamp := 0, machine_id := "M9", hour := 0
    optimized_production := 1, baseline_production := 1
    optimized_cost := 1, baseline_cost := 1 }

/-- A database holding a stale optimization row and no forecasts. -/
def demoEmptyDB : DB :=
  { raw_data := []
    forecasts := []
    optimizations := [staleOptRow] }

/-- Witness for `optimize_failure_writes_nothing`: with an empty forecast
table the run leaves the stale Result Store row untouched. -/
theorem optimize_failure_writes_nothing_witness :
    (demoEmptyDB.forecasts = [] ∨ true = false ∨
      ∀ p, buildProblem demoEmptyDB = some p → demoSolve p = none) ∧
    optimize_all true demoSolve demoEmptyDB = demoEmptyDB :=
  ⟨Or.inl rfl,
   optimize_failure_writes_nothing true demoSolve demoEmptyDB (Or.inl rfl)⟩

/-- **C1**: on every run that reaches an optimal solve and persists
results, every persisted row satisfies `0 ≤ optimized_production ≤
max_capacity` of its machine and `optimized_production ≤ predicted_demand`
of its (machine, timestamp) pair — the demand ceiling being `0` when no
forecast row exists for the pair — and for every timestamp appearing in the
persisted rows the machines' optimized productions sum to at most `0.9`
times the sum of all machines' (averaged) `max_capacity`. -/
theorem optimal_solution_invariants
    (solve : OptProblem → Option (String → ℤ → ℚ)) (db : DB)
    (hne : db.forecasts ≠ [])
    (hpx : ∃ p x, buildProblem db = some p ∧ solve p = some x ∧
      feasibleB p x = true) :
    (∀ r ∈ (optimize_all true solve db).optimizations,
      0 ≤ r.optimized_production ∧
      r.optimized_production ≤ ((specLookup db.raw_data r.machine_id).getD (0, 0)).2 ∧
      r.optimized_production ≤ predLookup db.forecasts r.machine_id r.timestamp) ∧
    (∀ t ∈ ((optimize_all true solve db).optimizations).map OptRow.timestamp,
      (((optimize_all true solve db).optimizations.filter
          (fun r => decide (r.timestamp = t))).map OptRow.optimized_production).sum ≤
        capSum db.raw_data * (9 / 10)) := by
  obtain ⟨p, x, hb, hs, hf⟩ := hpx
  have hrw := optimize_all_success hne hb hs
  rw [hrw]
  have hp := buildProblem_elim hb
  subst hp
  constructor
  · intro r hr
    obtain ⟨m, hm, t, ht, rfl⟩ := mem_resultRows hr
    rw [mkOptRow_opt, mkOptRow_machine_id, mkOptRow_timestamp]
    exact (feasible_spec hf).1 m hm t ht
  · intro t ht
    obtain ⟨r, hr, rfl⟩ := List.mem_map.1 ht
    obtain ⟨m, hm, t0, ht0, rfl⟩ := mem_resultRows hr
    rw [mkOptRow_timestamp, resultRows_filter_ts _ x (nodup_sortedDedup _ _) ht0]
    exact (feasible_spec hf).2 t0 ht0

/-- Witness for `optimal_solution_invariants` at the concrete one-machine,
one-timestamp database `demoDB` with the all-zero optimal point. -/
theorem optimal_solution_invariants_witness :
    (demoDB.forecasts ≠ [] ∧ ∃ p x, buildProblem demoDB = some p ∧
      demoSolve p = some x ∧ feasibleB p x = true) ∧
    ((∀ r ∈ (optimize_all true demoSolve demoDB).optimizations,
      0 ≤ r.optimized_production ∧
      r.optimized_production ≤ ((specLookup demoDB.raw_data r.machine_id).getD (0, 0)).2 ∧
      r.optimized_production ≤ predLookup demoDB.forecasts r.machine_id r.timestamp) ∧
    (∀ t ∈ ((optimize_all true demoSolve demoDB).optimizations).map OptRow.timestamp,
      (((optimize_all true demoSolve demoDB).optimizations.filter
          (fun r => decide (r.timestamp = t))).map OptRow.optimized_production).sum ≤
        capSum demoDB.raw_data * (9 / 10))) :=
  ⟨⟨by decide, demoProblem, fun _ _ => 0, by with_unfolding_all rfl, rfl,
    by with_unfolding_all decide⟩,
   optimal_solution_invariants demoSolve demoDB (by decide)
     ⟨demoProblem, fun _ _ => 0, by with_unfolding_all rfl, rfl,
      by with_unfolding_all decide⟩⟩

/-- **C4** (counterexample): the claim `baseline_production =
min(predicted_demand, max_capacity)` fails at a fractional forecast: on
`demoDB` the single persisted row (machine M1, timestamp 0) stores
`baseline_production = 0` while `min(predicted_demand, max_capacity) =
min(1/2, 75) = 1/2`, because the source stores `int(baseline_prod)`. -/
theorem baseline_not_min_counterexample :
    (optimize_all true demoSolve demoDB).optimizations.map OptRow.machine_id = ["M1"] ∧
    (optimize_all true demoSolve demoDB).optimizations.map OptRow.timestamp = [0] ∧
    (optimize_all true demoSolve demoDB).optimizations.map OptRow.baseline_production = [0] ∧
    min (predLookup demoDB.forecasts "M1" 0)
      (((specLookup demoDB.raw_data "M1").getD (0, 0)).2) = 1 / 2 ∧
    ((0 : ℚ) ≠ 1 / 2) := by
  with_unfolding_all decide

/-- **C4** (amended): every persisted row stores as `baseline_production`
the *integer truncation* (Python `int(...)`, truncation toward zero) of
`min(predicted_demand, max_capacity)` for its (machine, timestamp), the
predicted demand being `0` when no forecast row exists for the pair. -/
theorem baseline_is_truncated_min
    (solve : OptProblem → Option (String → ℤ → ℚ)) (db : DB)
    (hne : db.forecasts ≠ [])
    (hpx : ∃ p x, buildProblem db = some p ∧ solve p = some x ∧
      feasibleB p x = true) :
    ∀ r ∈ (optimize_all true solve db).optimizations,
      r.baseline_production =
        ratTrunc (min (predLookup db.forecasts r.machine_id r.timestamp)
          (((specLookup db.raw_data r.machine_id).getD (0, 0)).2)) := by
  obtain ⟨p, x, hb, hs, hf⟩ := hpx
  rw [optimize_all_success hne hb hs]
  have hp := buildProblem_elim hb
  subst hp
  intro r hr
  obtain ⟨m, hm, t, ht, rfl⟩ := mem_resultRows hr
  rw [mkOptRow_baseline, mkOptRow_machine_id, mkOptRow_timestamp]

/-- Witness for `baseline_is_truncated_min` at `demoDB`. -/
theorem baseline_is_truncated_min_witness :
    (demoDB.forecasts ≠ [] ∧ ∃ p x, buildProblem demoDB = some p ∧
      demoSolve p = some x ∧ feasibleB p x = true) ∧
    (∀ r ∈ (optimize_all true demoSolve demoDB).optimizations,
      r.baseline_production =
        ratTrunc (min (predLookup demoDB.forecasts r.machine_id r.timestamp)
          (((specLookup demoDB.raw_data r.machine_id).getD (0, 0)).2))) :=
  ⟨⟨by decide, demoProblem, fun _ _ => 0, by with_unfolding_all rfl, rfl,
    by with_unfolding_all decide⟩,
   baseline_is_truncated_min demoSolve demoDB (by decide)
     ⟨demoProblem, fun _ _ => 0, by with_unfolding_all rfl, rfl,
      by with_unfolding_all decide⟩⟩

/-- **C10**: on a successful (optimal) run the `optimizations` table holds
exactly one row for every pair in the cross product of the machine ids and
the timestamps appearing anywhere in `forecasts` — including pairs with no
forecast row, whose rows carry `optimized_production = 0` and
`baseline_production = 0`. -/
theorem result_set_is_cross_product
    (solve : OptProblem → Option (String → ℤ → ℚ)) (db : DB)
    (hne : db.forecasts ≠ [])
    (hpx : ∃ p x, buildProblem db = some p ∧ solve p = some x ∧
      feasibleB p x = true) :
    (∀ (m : String) (t : ℤ),
      ((optimize_all true solve db).optimizations.filter
          (fun r => decide (r.machine_id = m ∧ r.timestamp = t))).length =
        if m ∈ db.forecasts.map ForecastRow.machine_id ∧
            t ∈ db.forecasts.map ForecastRow.timestamp then 1 else 0) ∧
    (∀ r ∈ (optimize_all true solve db).optimizations,
      (∀ f ∈ db.forecasts,
        ¬(f.machine_id = r.machine_id ∧ f.timestamp = r.timestamp)) →
      r.optimized_production = 0 ∧ r.baseline_production = 0) := by
  obtain ⟨p, x, hb, hs, hf⟩ := hpx
  rw [optimize_all_success hne hb hs]
  have hp := buildProblem_elim hb
  subst hp
  constructor
  · intro m t
    rw [resultRows_count _ x (nodup_sortedDedup _ _) (nodup_sortedDedup _ _) m t]
    by_cases h : m ∈ db.forecasts.map ForecastRow.machine_id ∧
        t ∈ db.forecasts.map ForecastRow.timestamp
    · rw [if_pos ⟨(mem_sortedDedup _ _ _).2 h.1, (mem_sortedDedup _ _ _).2 h.2⟩,
        if_pos h]
    · rw [if_neg (fun hc => h ⟨(mem_sortedDedup _ _ _).1 hc.1,
        (mem_sortedDedup _ _ _).1 hc.2⟩), if_neg h]
  · intro r hr hno
    obtain ⟨m, hm, t, ht, rfl⟩ := mem_resultRows hr
    rw [mkOptRow_machine_id, mkOptRow_timestamp] at hno
    have hpred : predLookup db.forecasts m t = 0 := predLookup_eq_zero hno
    have hbounds := (feasible_spec hf).1 m hm t ht
    have hx0 : x m t = 0 := by
      have hle : x m t ≤ 0 := hpred ▸ hbounds.2.2
      exact le_antisymm hle hbounds.1
    have hcap : (0 : ℚ) ≤ ((specLookup db.raw_data m).getD (0, 0)).2 :=
      le_trans hbounds.1 hbounds.2.1
    constructor
    · rw [mkOptRow_opt]
      exact hx0
    · rw [mkOptRow_baseline]
      show ratTrunc (min (predLookup db.forecasts m t)
        (((specLookup db.raw_data m).getD (0, 0)).2)) = 0
      rw [hpred, min_eq_left hcap]
      rfl

/-- Witness for `result_set_is_cross_product` at `demoDB`. -/
theorem result_set_is_cross_product_witness :
    (demoDB.forecasts ≠ [] ∧ ∃ p x, buildProblem demoDB = some p ∧
      demoSolve p = some x ∧ feasibleB p x = true) ∧
    ((∀ (m : String) (t : ℤ),
      ((optimize_all true demoSolve demoDB).optimizations.filter
          (fun r => decide (r.machine_id = m ∧ r.timestamp = t))).length =
        if m ∈ demoDB.forecasts.map ForecastRow.machine_id ∧
            t ∈ demoDB.forecasts.map ForecastRow.timestamp then 1 else 0) ∧
    (∀ r ∈ (optimize_all true demoSolve demoDB).optimizations,
      (∀ f ∈ demoDB.forecasts,
        ¬(f.machine_id = r.machine_id ∧ f.timestamp = r.timestamp)) →
      r.optimized_production = 0 ∧ r.baseline_production = 0)) :=
  ⟨⟨by decide, demoProblem, fun _ _ => 0, by with_unfolding_all rfl, rfl,
    by with_unfolding_all decide⟩,
   result_set_is_cross_product demoSolve demoDB (by decide)
     ⟨demoProblem, fun _ _ => 0, by with_unfolding_all rfl, rfl,
      by with_unfolding_all decide⟩⟩

/-- **C9** (code evaluation at the failing input): the trailing one-day
window of the specs query is ineffective.  `oldRawRow` is four days older
than the latest observation, yet it passes the query's WHERE clause — which
SQLite evaluates as the TEXT comparison `timestamp > '2023'` — so the
averaged `(energy_per_unit, max_capacity)` over `demoDB.raw_data` is
`(2, 75)`, including the stale capacity `100`, where a real one-day window
would give `(2, 50)` from `recentRawRow` alone. -/
theorem specs_window_filter_ineffective :
    specFilter demoDB.raw_data oldRawRow = true ∧
    textToNum recentRawRow.timestamp - 1 = 2023 ∧
    specLookup demoDB.raw_data "M1" = some (2, 75) ∧
    specLookup [recentRawRow] "M1" = some (2, 50) := by
  with_unfolding_all decide

end PPA
